import Mathlib

/-!
Verification of the harmonic-analysis core of the DAW Musical Companion.

The two modules present in the repository, `src/note-utils.js` and
`src/scale-dictionary.js`, are embedded directly from their source.  The
analysis modules referenced by the test suites (`harmonic-analyzer.js`,
`key-detector.js`, `midi-manager.js`, `suggestion-engine.js`,
`chord-dictionary.js`) are not part of the repository snapshot; the
definitions for them below are modelled from the design document, each
marked as such in its doc comment.

Numeric scores and confidences are embedded as exact natural numbers
scaled by 100 (confidence 1.0 becomes 100): the design document only ever
uses these values for ordering, and the scaling keeps every comparison
exact and computable.
-/

/-- Chromatic pitch-class alphabet, from `src/note-utils.js` (`noteNames`). -/
def NOTE_NAMES : List String :=
  ["C", "C#", "D", "D#", "E", "F"] ++ ["F#", "G", "G#", "A", "A#", "B"]

/-- Embedding of `midiToNoteName` from `src/note-utils.js`.  Out-of-range
input yields the string "Invalid"; otherwise the pitch-class letter at
index `m % 12` is followed by the octave `m / 12 - 1` (MIDI 0 is C-1).
Integer division on a non-negative `m` agrees with the source's
`Math.floor`. -/
def midiToNoteName (m : Int) : String :=
  if m < 0 ∨ 127 < m then "Invalid"
  else NOTE_NAMES.getD (m % 12).toNat "" ++ toString (m / 12 - 1)

/-- Embedding of the `SCALES` map from `src/scale-dictionary.js`:
interval offsets relative to the root, in source order. -/
def SCALES : List (String × List Nat) :=
  [("Major", [0, 2, 4, 5, 7, 9, 11]),
   ("Minor", [0, 2, 3, 5, 7, 8, 10]),
   ("Harmonic Minor", [0, 2, 3, 5, 7, 8, 11]),
   ("Melodic Minor", [0, 2, 3, 5, 7, 9, 11]),
   ("Dorian", [0, 2, 3, 5, 7, 9, 10]),
   ("Mixolydian", [0, 2, 4, 5, 7, 9, 10]),
   ("Lydian", [0, 2, 4, 6, 7, 9, 11]),
   ("Phrygian", [0, 1, 3, 5, 7, 8, 10]),
   ("Pentatonic Major", [0, 2, 4, 7, 9]),
   ("Pentatonic Minor", [0, 3, 5, 7, 10]),
   ("Blues", [0, 3, 5, 6, 7, 10])]

/-- Modelled from the spec: the chord dictionary (`chord-dictionary.js` is
absent from the snapshot).  A quality name maps to an ascending offset
set containing 0; list order is the declared precedence used by chord
classification.  The qualities are the ones named by the design document
and exercised by the regression tests (Major, Minor, Diminished triads
and Maj7 / Min7 / Dom7 sevenths). -/
def CHORDS : List (String × List Nat) :=
  [("Major", [0, 4, 7]),
   ("Minor", [0, 3, 7]),
   ("Diminished", [0, 3, 6]),
   ("Maj7", [0, 4, 7, 11]),
   ("Min7", [0, 3, 7, 10]),
   ("Dom7", [0, 4, 7, 10])]

/-- Modelled from the spec: split a character list into space-separated
words, mirroring how a chord or key name "<Root> <Quality>" is taken
apart at spaces by the missing analysis modules. -/
def splitWords : List Char → List (List Char)
  | [] => [[]]
  | c :: cs =>
    let rest := splitWords cs
    if c = ' ' then [] :: rest
    else
      match rest with
      | [] => [[c]]
      | w :: ws => (c :: w) :: ws

/-- Join words with a separator (inverse of `splitWords` on the tail of a
name, used to restore multi-word qualities such as "Pentatonic Major"). -/
def joinWith (sep : String) : List String → String
  | [] => ""
  | [w] => w
  | w :: ws => w ++ sep ++ joinWith sep ws

/-- Modelled from the spec: parse a canonical name "<Root> <Quality>" into
its root token and the remaining quality text; names without a space (or
empty) do not parse. -/
def parseName (s : String) : Option (String × String) :=
  match splitWords s.data with
  | [] => none
  | [_] => none
  | w :: ws => some (String.mk w, joinWith " " (ws.map String.mk))

/-- Index of a pitch-class letter in the chromatic alphabet. -/
def idxAux (name : String) : List String → Nat → Option Nat
  | [], _ => none
  | n :: ns, i => if n = name then some i else idxAux name ns (i + 1)

/-- Pitch class (0-11) denoted by a root letter, if any. -/
def noteIndex (name : String) : Option Nat :=
  idxAux name NOTE_NAMES 0

/-- Modelled from the spec: resolve a chord name against the chord
dictionary, yielding root pitch class, quality and formula; anything
unparseable or unknown resolves to `none`. -/
def parseChord (s : String) : Option (Nat × String × List Nat) :=
  match parseName s with
  | none => none
  | some (r, q) =>
    match noteIndex r, List.lookup q CHORDS with
    | some i, some formula => some (i, q, formula)
    | _, _ => none

/-- Modelled from the spec: resolve a key name "<Root> <Scale>" against
the scale dictionary. -/
def parseKey (s : String) : Option (Nat × String × List Nat) :=
  match parseName s with
  | none => none
  | some (r, q) =>
    match noteIndex r, List.lookup q SCALES with
    | some i, some formula => some (i, q, formula)
    | _, _ => none

/-- Modelled from the spec: step 1 of chord classification — reduce a
pitch collection to its distinct pitch classes, in ascending order. -/
def pitchClasses (ps : List Nat) : List Nat :=
  (List.range 12).filter (fun c => ps.any (fun p => p % 12 == c))

/-- Modelled from the spec: the sorted interval set `{(p - r) mod 12}` of
a pitch-class set viewed from candidate root `r`: interval `i` is present
exactly when the pitch class `(r + i) mod 12` sounds. -/
def intervalsFrom (pcs : List Nat) (r : Nat) : List Nat :=
  (List.range 12).filter (fun i => pcs.contains ((r + i) % 12))

/-- Modelled from the spec: steps 3-4 of chord classification — compare
the interval set from root `r` against every dictionary formula in the
declared precedence order; the first exact match names the quality. -/
def matchRoot (pcs : List Nat) (r : Nat) : Option String :=
  CHORDS.findSome? (fun nf => if intervalsFrom pcs r == nf.2 then some nf.1 else none)

/-- Modelled from the spec: chord classification over an already reduced
pitch-class set: fewer than 3 distinct classes is no chord, otherwise
each distinct class is tried as root in ascending order and the first
qualifying match wins, producing "<RootLetter> <Quality>". -/
def detectChordPcs (pcs : List Nat) : Option String :=
  if pcs.length < 3 then none
  else
    pcs.findSome? (fun r =>
      match matchRoot pcs r with
      | some q => some (NOTE_NAMES.getD r "?" ++ " " ++ q)
      | none => none)

/-- Modelled from the spec: `detectChord` of `harmonic-analyzer.js`
(absent from the snapshot) — classify any collection of pitches, in any
order and octave, by its pitch-class content. -/
def detectChord (ps : List Nat) : Option String :=
  detectChordPcs (pitchClasses ps)

/-- Modelled from the spec: the Note State Tracker of `midi-manager.js`
(absent from the snapshot), as the activation-ordered list of held
pitches.  Note-on adds the pitch; re-activating an already held pitch
moves it to the end of the activation order. -/
def noteOn (p : Nat) (active : List Nat) : List Nat :=
  active.filter (fun q => q != p) ++ [p]

/-- Modelled from the spec: note-off removes the pitch if present. -/
def noteOff (p : Nat) (active : List Nat) : List Nat :=
  active.filter (fun q => q != p)

/-- Insert into a list kept in descending key order, before the first
element whose key is not larger (so elements already present that share
the key keep their earlier position). -/
def insertByDesc (f : α → Nat) (x : α) : List α → List α
  | [] => [x]
  | y :: ys => if f y ≤ f x then x :: y :: ys else y :: insertByDesc f x ys

/-- Stable insertion sort by a numeric key, descending. -/
def sortByDesc (f : α → Nat) : List α → List α
  | [] => []
  | x :: xs => insertByDesc f x (sortByDesc f xs)

theorem mem_insertByDesc {f : α → Nat} {x a : α} :
    ∀ {l : List α}, a ∈ insertByDesc f x l ↔ a = x ∨ a ∈ l := by
  intro l
  induction l with
  | nil => simp [insertByDesc]
  | cons y ys ih =>
    rw [insertByDesc]
    split
    · simp [List.mem_cons]
    · simp only [List.mem_cons, ih]
      tauto

theorem pairwise_insertByDesc (f : α → Nat) (x : α) {l : List α}
    (h : l.Pairwise (fun a b => f b ≤ f a)) :
    (insertByDesc f x l).Pairwise (fun a b => f b ≤ f a) := by
  induction l with
  | nil => simp [insertByDesc]
  | cons y ys ih =>
    rw [insertByDesc]
    rcases List.pairwise_cons.mp h with ⟨hy, hys⟩
    split
    · rename_i hle
      refine List.pairwise_cons.mpr ⟨?_, h⟩
      intro b hb
      rcases List.mem_cons.mp hb with rfl | hb
      · exact hle
      · exact le_trans (hy b hb) hle
    · rename_i hnle
      refine List.pairwise_cons.mpr ⟨?_, ih hys⟩
      intro b hb
      rcases mem_insertByDesc.mp hb with rfl | hb
      · exact le_of_lt (lt_of_not_le hnle)
      · exact hy b hb

theorem pairwise_sortByDesc (f : α → Nat) (l : List α) :
    (sortByDesc f l).Pairwise (fun a b => f b ≤ f a) := by
  induction l with
  | nil => exact List.Pairwise.nil
  | cons x xs ih => exact pairwise_insertByDesc f x ih

theorem mem_sortByDesc {f : α → Nat} {a : α} :
    ∀ {l : List α}, a ∈ sortByDesc f l ↔ a ∈ l := by
  intro l
  induction l with
  | nil => simp [sortByDesc]
  | cons x xs ih =>
    rw [sortByDesc]
    simp only [mem_insertByDesc, ih, List.mem_cons]

/-- A ranked key candidate: root letter, scale name and fit score. -/
structure KeyCandidate where
  root : String
  scale : String
  score : Nat
deriving DecidableEq

/-- Modelled from the spec: the two candidate scale families searched by
the key detector (12 roots each). -/
def DETECT_SCALES : List String := ["Major", "Minor"]

/-- Modelled from the spec: a history chord fits a key when its full
pitch-class content is a subset of the key's pitch-class set. -/
def chordFits (keyset : List Nat) (chordName : String) : Bool :=
  match parseChord chordName with
  | none => false
  | some (r, _, f) => (f.map (fun o => (r + o) % 12)).all (fun pc => keyset.contains pc)

/-- Modelled from the spec: weighted fit count of the history against one
key; the weight of the chord at (0-based) history position `i` is
`i + 1`, so recency weighting is monotonically increasing towards the
most-recent-last end of the history. -/
def keyScore (hist : List String) (keyset : List Nat) : Nat :=
  (hist.enum.map (fun ic => if chordFits keyset ic.2 then ic.1 + 1 else 0)).sum

/-- Modelled from the spec: all candidate keys with positive score, in
enumeration order (roots C..B chromatically, Major before Minor at each
root); this enumeration order is the documented stable tie-break once
the stable descending sort is applied. -/
def keyCandsRaw (hist : List String) : List KeyCandidate :=
  ((List.range 12).flatMap (fun r =>
    DETECT_SCALES.filterMap (fun sname =>
      (List.lookup sname SCALES).map (fun formula =>
        { root := NOTE_NAMES.getD r "?", scale := sname,
          score := keyScore hist (formula.map (fun o => (r + o) % 12)) })))).filter
    (fun k => 0 < k.score)

/-- Modelled from the spec: `KeyDetector.detect()` — positive-score
candidates sorted by score descending (stable). -/
def detect (hist : List String) : List KeyCandidate :=
  sortByDesc (fun k => k.score) (keyCandsRaw hist)

/-- Modelled from the spec: capacity of the bounded chord history. -/
def HISTORY_MAX : Nat := 8

/-- Modelled from the spec: `KeyDetector.addChord(name)` appends the name
if it resolves via the chord dictionary (otherwise no-op), evicting the
oldest entry when the bounded history overflows. -/
def addChord (s : String) (hist : List String) : List String :=
  match parseChord s with
  | none => hist
  | some _ =>
    let h := hist ++ [s]
    if HISTORY_MAX < h.length then h.drop (h.length - HISTORY_MAX) else h

/-- A ranked harmonic suggestion: chord or scale name, role label, and
confidence scaled to 0..100 (1.0 becomes 100). -/
structure Suggestion where
  name : String
  function : String
  confidence : Nat
deriving DecidableEq

/-- Upper-case Roman numerals for major scale-degree triads. -/
def ROMAN_UPPER : List String := ["I", "II", "III", "IV", "V", "VI", "VII"]

/-- Lower-case Roman numerals for minor and diminished degree triads. -/
def ROMAN_LOWER : List String := ["i", "ii", "iii", "iv", "v", "vi", "vii"]

/-- Modelled from the spec: per-degree confidence of a diatonic triad
(0-based degree), ranking tonic, dominant and subdominant above the
ii / iii / vi degrees, above the seventh degree. -/
def DEGREE_CONF : List Nat := [100, 70, 60, 85, 90, 65, 40]

/-- Modelled from the spec: triad quality read off the stacked-third
interval pattern (third, fifth) above the degree root. -/
def triadQuality (t fi : Nat) : Option String :=
  if t = 4 ∧ fi = 7 then some "Major"
  else if t = 3 ∧ fi = 7 then some "Minor"
  else if t = 3 ∧ fi = 6 then some "Diminished"
  else none

/-- Modelled from the spec: the scale-degree triads of a key — for each
degree, stack thirds within the scale, name the triad from its pitch
class and quality, label it with its Roman numeral (upper-case major,
lower-case minor, lower-case with a diminished marker), and rank it with
the per-degree confidence. -/
def diatonicTriads (root : Nat) (formula : List Nat) : List Suggestion :=
  (List.range formula.length).filterMap (fun i =>
    match formula.get? i, formula.get? ((i + 2) % formula.length),
        formula.get? ((i + 4) % formula.length) with
    | some a, some b, some c =>
      match triadQuality ((b + 12 - a) % 12) ((c + 12 - a) % 12) with
      | none => none
      | some q =>
        let deg := NOTE_NAMES.getD ((root + a) % 12) "?"
        let numeral :=
          if q = "Major" then ROMAN_UPPER.getD i "?"
          else if q = "Minor" then ROMAN_LOWER.getD i "?"
          else ROMAN_LOWER.getD i "?" ++ "°"
        some ⟨deg ++ " " ++ q, numeral, DEGREE_CONF.getD i 0⟩
    | _, _, _ => none)

/-- Modelled from the spec: the unsorted suggestion list of
`suggestDiatonicChords` — the degree triads of a resolvable key, with
any suggestion named like the current chord excluded; an unresolvable
key yields nothing. -/
def diatonicRaw (key : String) (current : Option String) : List Suggestion :=
  match parseKey key with
  | none => []
  | some (r, _, formula) =>
    let ts := diatonicTriads r formula
    match current with
    | none => ts
    | some c => ts.filter (fun s => s.name != c)

/-- Modelled from the spec: `suggestDiatonicChords` of
`suggestion-engine.js` (absent from the snapshot), sorted by confidence
descending. -/
def suggestDiatonicChords (key : String) (current : Option String) : List Suggestion :=
  sortByDesc (fun s => s.confidence) (diatonicRaw key current)

/-- Modelled from the spec: the unsorted suggestion list of
`suggestScales` — the parent scale first at full confidence, then the
other dictionary scales at the same tonic; with a resolvable current
chord only scales whose pitch-class set contains the chord's pitch
classes are kept. -/
def scalesRaw (key : String) (current : Option String) : List Suggestion :=
  match parseKey key with
  | none => []
  | some (r, sname, _) =>
    let rootName := NOTE_NAMES.getD r "?"
    let parent : Suggestion := ⟨rootName ++ " " ++ sname, "parent scale", 100⟩
    let others := SCALES.filterMap (fun nf =>
      if nf.1 = sname then none
      else
        let sset := nf.2.map (fun o => (r + o) % 12)
        match current.bind parseChord with
        | none => some (⟨rootName ++ " " ++ nf.1, "related scale", 70⟩ : Suggestion)
        | some (cr, _, cf) =>
          if (cf.map (fun o => (cr + o) % 12)).all (fun pc => sset.contains pc) then
            some (⟨rootName ++ " " ++ nf.1, "compatible scale", 70⟩ : Suggestion)
          else none)
    parent :: others

/-- Modelled from the spec: `suggestScales` of `suggestion-engine.js`
(absent from the snapshot), sorted by confidence descending. -/
def suggestScales (key : String) (current : Option String) : List Suggestion :=
  sortByDesc (fun s => s.confidence) (scalesRaw key current)

/-- Modelled from the spec: the fixed triad-quality to richer-quality
extension map, confidence favouring sevenths over sixths and ninths;
qualities without an entry (such as Dom7) extend to nothing. -/
def EXTENSIONS : List (String × List (String × Nat)) :=
  [("Major", [("Maj7", 90), ("Dom7", 80), ("6", 60), ("add9", 50)]),
   ("Minor", [("Min7", 90), ("Min6", 60)]),
   ("Diminished", [("m7b5 (Half-Dim)", 90)])]

/-- Modelled from the spec: the unsorted suggestion list of
`suggestExtensions` — the mapped extensions of a resolvable chord's
quality, renamed onto the chord's root. -/
def extensionsRaw (chord : String) : List Suggestion :=
  match parseChord chord with
  | none => []
  | some (r, q, _) =>
    match List.lookup q EXTENSIONS with
    | none => []
    | some exts =>
      exts.map (fun e => ⟨NOTE_NAMES.getD r "?" ++ " " ++ e.1, "extension", e.2⟩)

/-- Modelled from the spec: `suggestExtensions` of `suggestion-engine.js`
(absent from the snapshot), sorted by confidence descending. -/
def suggestExtensions (chord : String) : List Suggestion :=
  sortByDesc (fun s => s.confidence) (extensionsRaw chord)

/-- Modelled from the spec: the JavaScript values a caller may pass to
the suggestion functions.  Only strings carry data the engine can use;
every other shape is rejected up front, so the functions are total and
never throw. -/
inductive JSVal where
  | str (s : String)
  | num (n : Int)
  | nullV
  | undef
  | arr
  | obj
deriving DecidableEq

/-- The string carried by a JavaScript value, if any. -/
def asString : JSVal → Option String
  | .str s => some s
  | _ => none

/-- Modelled from the spec: `suggestDiatonicChords` as called from
JavaScript — a non-string key yields the empty list. -/
def suggestDiatonicChordsJS (key current : JSVal) : List Suggestion :=
  match key with
  | .str s => suggestDiatonicChords s (asString current)
  | _ => []

/-- Modelled from the spec: `suggestScales` as called from JavaScript. -/
def suggestScalesJS (key current : JSVal) : List Suggestion :=
  match key with
  | .str s => suggestScales s (asString current)
  | _ => []

/-- Modelled from the spec: `suggestExtensions` as called from
JavaScript. -/
def suggestExtensionsJS (chord : JSVal) : List Suggestion :=
  match chord with
  | .str s => suggestExtensions s
  | _ => []

/-- C1: `detectChord` returns the exact canonical names for the four
reference voicings: C Major for [60,64,67], A Minor for [57,60,64],
G Dom7 for [55,59,62,65] and C Maj7 for [60,64,67,71]. -/
theorem detectChord_reference_voicings :
    detectChord [60, 64, 67] = some "C Major" ∧
    detectChord [57, 60, 64] = some "A Minor" ∧
    detectChord [55, 59, 62, 65] = some "G Dom7" ∧
    detectChord [60, 64, 67, 71] = some "C Maj7" :=
  ⟨by decide, by decide, by decide, by decide⟩

/-- C2: whenever the input pitch collection has fewer than 3 distinct
pitch classes, `detectChord` returns no chord. -/
theorem detectChord_null_below_three_classes :
    ∀ ps : List Nat, (pitchClasses ps).length < 3 → detectChord ps = none := by
  intro ps h
  unfold detectChord detectChordPcs
  rw [if_pos h]

/-- C2 witness: the singleton [60] and the empty collection have fewer
than 3 distinct pitch classes, hence no chord. -/
theorem detectChord_null_below_three_classes_witness :
    detectChord [60] = none ∧ detectChord [] = none :=
  ⟨detectChord_null_below_three_classes [60] (by decide),
   detectChord_null_below_three_classes [] (by decide)⟩

/-- C3: `detectChord` depends only on the pitch-class content of its
input — any two collections sounding the same pitch classes (in
particular permutations and octave transpositions of one another)
classify identically; and both voicings of the C major triad map to
"C Major". -/
theorem detectChord_pitch_class_invariant :
    (∀ ps qs : List Nat,
      (∀ c, c < 12 → ps.any (fun p => p % 12 == c) = qs.any (fun p => p % 12 == c)) →
      detectChord ps = detectChord qs) ∧
    detectChord [60, 64, 67] = some "C Major" ∧
    detectChord [72, 76, 79] = some "C Major" := by
  refine ⟨?_, by decide, by decide⟩
  intro ps qs h
  have hpc : pitchClasses ps = pitchClasses qs := by
    unfold pitchClasses
    exact List.filter_congr (fun c hc => h c (List.mem_range.mp hc))
  unfold detectChord
  rw [hpc]

/-- C3 witness: [60,64,67] and [72,76,79] have the same pitch-class
content, so they classify identically. -/
theorem detectChord_pitch_class_invariant_witness :
    detectChord [60, 64, 67] = detectChord [72, 76, 79] :=
  detectChord_pitch_class_invariant.1 [60, 64, 67] [72, 76, 79] (by decide)

/-- C4 (amended): for a pitch that is not currently active, note-on
followed by note-off restores the prior active set; the original claim's
already-active case is refuted by `noteTracker_on_off_counterexample`. -/
theorem noteTracker_on_off_restores (s : List Nat) (p : Nat)
    (_hp : p ≤ 127) (h : p ∉ s) :
    noteOff p (noteOn p s) = s := by
  unfold noteOn noteOff
  have h1 : s.filter (fun q => q != p) = s :=
    List.filter_eq_self.mpr (fun a ha => bne_iff_ne.mpr (fun e => h (e ▸ ha)))
  rw [h1, List.filter_append, h1]
  simp

/-- C4 witness: pitch 60 is not active in [64], and the on/off pair
leaves [64] unchanged. -/
theorem noteTracker_on_off_restores_witness :
    noteOff 60 (noteOn 60 [64]) = [64] :=
  noteTracker_on_off_restores [64] 60 (by decide) (by decide)

/-- C4 counterexample: with pitch 60 already active, note-on(60) then
note-off(60) yields the empty active set, not the original [60] — the
note-off removes the re-activated pitch, so the pre-note-on state is not
restored. -/
theorem noteTracker_on_off_counterexample :
    noteOff 60 (noteOn 60 [60]) = [] ∧ noteOff 60 (noteOn 60 [60]) ≠ [60] :=
  ⟨by decide, by decide⟩

/-- C5: after the ii-V-I history D Minor, G Major, C Major the top key
candidate is C Major (with weighted score 6); every candidate `detect`
returns has positive score; the list is sorted by score descending; and
an empty history yields an empty list. -/
theorem keyDetector_iiVI_top_c_major :
    (detect (addChord "C Major" (addChord "G Major" (addChord "D Minor" [])))).head? =
      some ⟨"C", "Major", 6⟩ ∧
    (∀ hist : List String, ∀ k ∈ detect hist, 0 < k.score) ∧
    (∀ hist : List String, (detect hist).Pairwise (fun a b => b.score ≤ a.score)) ∧
    detect [] = [] := by
  refine ⟨by decide, ?_, ?_, by decide⟩
  · intro hist k hk
    have hk' : k ∈ keyCandsRaw hist := mem_sortByDesc.mp hk
    unfold keyCandsRaw at hk'
    simp only [List.mem_filter, decide_eq_true_eq] at hk'
    exact hk'.2
  · intro hist
    exact pairwise_sortByDesc _ _

/-- C5 witness: the top candidate after the ii-V-I history is a member
of the returned list, so its score is positive. -/
theorem keyDetector_iiVI_top_c_major_witness :
    0 < (⟨"C", "Major", 6⟩ : KeyCandidate).score :=
  keyDetector_iiVI_top_c_major.2.1
    (addChord "C Major" (addChord "G Major" (addChord "D Minor" []))) _ (by decide)

/-- C6: on any input that is not a string resolving to a known key or
chord (numbers, objects, arrays, null, undefined, unknown names), each
of the three suggestion functions returns the empty list; being total
Lean functions, they cannot throw. -/
theorem suggestion_invalid_input_empty (v w : JSVal)
    (h : ∀ s : String, v = JSVal.str s → parseKey s = none ∧ parseChord s = none) :
    suggestDiatonicChordsJS v w = [] ∧ suggestScalesJS v w = [] ∧
      suggestExtensionsJS v = [] := by
  cases v with
  | str s =>
    obtain ⟨hk, hc⟩ := h s rfl
    refine ⟨?_, ?_, ?_⟩
    · simp [suggestDiatonicChordsJS, suggestDiatonicChords, diatonicRaw, hk, sortByDesc]
    · simp [suggestScalesJS, suggestScales, scalesRaw, hk, sortByDesc]
    · simp [suggestExtensionsJS, suggestExtensions, extensionsRaw, hc, sortByDesc]
  | num n => exact ⟨rfl, rfl, rfl⟩
  | nullV => exact ⟨rfl, rfl, rfl⟩
  | undef => exact ⟨rfl, rfl, rfl⟩
  | arr => exact ⟨rfl, rfl, rfl⟩
  | obj => exact ⟨rfl, rfl, rfl⟩

/-- C6 witness: the numeric call from the test suite, including
suggestDiatonicChords(123, 456) = []. -/
theorem suggestion_invalid_input_empty_witness :
    suggestDiatonicChordsJS (JSVal.num 123) (JSVal.num 456) = [] ∧
      suggestScalesJS (JSVal.num 123) (JSVal.num 456) = [] ∧
      suggestExtensionsJS (JSVal.num 123) = [] :=
  suggestion_invalid_input_empty (JSVal.num 123) (JSVal.num 456)
    (fun _ h => nomatch h)

/-- C7: the diatonic suggestions for "C Major" with no current chord
include C Major as I, F Major as IV, G Major as V and A Minor as vi; and
for every key and current chord, no returned suggestion is named like
the current chord. -/
theorem suggestDiatonic_c_major_and_excludes_current :
    (∃ s ∈ suggestDiatonicChords "C Major" none, s.name = "C Major" ∧ s.function = "I") ∧
    (∃ s ∈ suggestDiatonicChords "C Major" none, s.name = "F Major" ∧ s.function = "IV") ∧
    (∃ s ∈ suggestDiatonicChords "C Major" none, s.name = "G Major" ∧ s.function = "V") ∧
    (∃ s ∈ suggestDiatonicChords "C Major" none, s.name = "A Minor" ∧ s.function = "vi") ∧
    (∀ (key cur : String), ∀ s ∈ suggestDiatonicChords key (some cur), s.name ≠ cur) := by
  refine ⟨by decide, by decide, by decide, by decide, ?_⟩
  intro key cur s hs
  have hs' : s ∈ diatonicRaw key (some cur) := mem_sortByDesc.mp hs
  unfold diatonicRaw at hs'
  cases hk : parseKey key with
  | none =>
    rw [hk] at hs'
    simp at hs'
  | some v =>
    obtain ⟨r, q, formula⟩ := v
    rw [hk] at hs'
    simp only [List.mem_filter] at hs'
    exact bne_iff_ne.mp hs'.2

/-- C7 witness: with current chord "G Major" in key "C Major", the
tonic suggestion is returned and is not named "G Major". -/
theorem suggestDiatonic_excludes_current_witness :
    (⟨"C Major", "I", 100⟩ : Suggestion).name ≠ "G Major" :=
  suggestDiatonic_c_major_and_excludes_current.2.2.2.2 "C Major" "G Major" _ (by decide)

/-- C8: every list the suggestion functions and the key detector return
is sorted descending by its confidence (score) field, and repeated calls
with identical arguments return identical lists (the embedded functions
are pure). -/
theorem outputs_sorted_desc_and_deterministic :
    (∀ k c : JSVal,
      (suggestDiatonicChordsJS k c).Pairwise (fun a b => b.confidence ≤ a.confidence)) ∧
    (∀ k c : JSVal,
      (suggestScalesJS k c).Pairwise (fun a b => b.confidence ≤ a.confidence)) ∧
    (∀ ch : JSVal,
      (suggestExtensionsJS ch).Pairwise (fun a b => b.confidence ≤ a.confidence)) ∧
    (∀ hist : List String, (detect hist).Pairwise (fun a b => b.score ≤ a.score)) ∧
    (∀ k c : JSVal, suggestDiatonicChordsJS k c = suggestDiatonicChordsJS k c) ∧
    (∀ k c : JSVal, suggestScalesJS k c = suggestScalesJS k c) ∧
    (∀ ch : JSVal, suggestExtensionsJS ch = suggestExtensionsJS ch) ∧
    (∀ hist : List String, detect hist = detect hist) := by
  refine ⟨?_, ?_, ?_, ?_, fun _ _ => rfl, fun _ _ => rfl, fun _ => rfl, fun _ => rfl⟩
  · intro k c
    cases k with
    | str s => exact pairwise_sortByDesc _ _
    | num n => exact List.Pairwise.nil
    | nullV => exact List.Pairwise.nil
    | undef => exact List.Pairwise.nil
    | arr => exact List.Pairwise.nil
    | obj => exact List.Pairwise.nil
  · intro k c
    cases k with
    | str s => exact pairwise_sortByDesc _ _
    | num n => exact List.Pairwise.nil
    | nullV => exact List.Pairwise.nil
    | undef => exact List.Pairwise.nil
    | arr => exact List.Pairwise.nil
    | obj => exact List.Pairwise.nil
  · intro ch
    cases ch with
    | str s => exact pairwise_sortByDesc _ _
    | num n => exact List.Pairwise.nil
    | nullV => exact List.Pairwise.nil
    | undef => exact List.Pairwise.nil
    | arr => exact List.Pairwise.nil
    | obj => exact List.Pairwise.nil
  · intro hist
    exact pairwise_sortByDesc _ _

/-- C9: every formula in the scale dictionary is duplicate-free,
strictly ascending, starts at 0 and stays within the semitone offsets
0..11. -/
theorem scales_dictionary_wellformed :
    ∀ nf ∈ SCALES, nf.2.Nodup ∧ nf.2.Pairwise (· < ·) ∧
      (∀ x ∈ nf.2, x ≤ 11) ∧ nf.2.head? = some 0 := by decide

/-- C9 witness: the Major formula is in the dictionary and starts at
offset 0. -/
theorem scales_dictionary_wellformed_witness :
    (("Major", [0, 2, 4, 5, 7, 9, 11]) : String × List Nat).2.head? = some 0 :=
  (scales_dictionary_wellformed ("Major", [0, 2, 4, 5, 7, 9, 11]) (by decide)).2.2.2

/-- C10: for MIDI numbers 0..127 `midiToNoteName` concatenates the
pitch-class letter at index m mod 12 with the octave floor(m/12) - 1
(so 60 is "C4", 0 is "C-1", 127 is "G9"); any other integer yields
"Invalid"; the function is total, so it never throws. -/
theorem midiToNoteName_spec :
    (∀ m : Int, 0 ≤ m → m ≤ 127 →
      midiToNoteName m = NOTE_NAMES.getD (m % 12).toNat "" ++ toString (m / 12 - 1)) ∧
    (∀ m : Int, m < 0 ∨ 127 < m → midiToNoteName m = "Invalid") ∧
    midiToNoteName 60 = "C4" ∧ midiToNoteName 0 = "C-1" ∧ midiToNoteName 127 = "G9" := by
  refine ⟨?_, ?_, by decide, by decide, by decide⟩
  · intro m h0 h1
    unfold midiToNoteName
    rw [if_neg (by omega)]
  · intro m h
    unfold midiToNoteName
    rw [if_pos h]

/-- C10 witness: middle C evaluated through the in-range branch. -/
theorem midiToNoteName_spec_witness :
    midiToNoteName 60 =
      NOTE_NAMES.getD ((60 : Int) % 12).toNat "" ++ toString ((60 : Int) / 12 - 1) :=
  midiToNoteName_spec.1 60 (by decide) (by decide)
